import Mathlib

/-!
Verification of the boson render-graph executor (`src/task.rs`).

The Rust source is shallowly embedded: access enumerations and their
conversions (`From` impls) become Lean functions, the per-frame hazard
tracking and barrier batching of `RenderGraph::render` become explicit
folds over lists, and the frame lifecycle (fence gate, clock, submit,
present, frame-slot rotation) becomes a pure state-transition function
driven by an input record standing for the external device and the
caller-resolved task data.
-/

namespace Boson

/-- Pipeline stage bitmask. The crate-level `PipelineStage` bitflags type is
outside the shown file; the bits mirror Vulkan's stage flag bits, one distinct
bit per named stage, with `empty` the zero mask. Only distinctness of the
constants and bitwise-or matter to the executor. -/
abbrev PipelineStage := Nat

namespace PipelineStage

def empty : PipelineStage := 0
def TOP_OF_PIPE : PipelineStage := 0x1
def VERTEX_SHADER : PipelineStage := 0x8
def FRAGMENT_SHADER : PipelineStage := 0x80
def EARLY_FRAGMENT_TESTS : PipelineStage := 0x100
def LATE_FRAGMENT_TESTS : PipelineStage := 0x200
def COLOR_ATTACHMENT_OUTPUT : PipelineStage := 0x400
def COMPUTE_SHADER : PipelineStage := 0x800
def TRANSFER : PipelineStage := 0x1000
def HOST : PipelineStage := 0x4000
def ALL_GRAPHICS : PipelineStage := 0x8000
def ALL_COMMANDS : PipelineStage := 0x10000

end PipelineStage

/-- Access permission bitmask (the crate's `Access` bitflags: READ, WRITE). -/
abbrev Access := Nat

namespace Access

def empty : Access := 0
def READ : Access := 1
def WRITE : Access := 2

end Access

/-- Image layouts, as named in `From<ImageAccess> for ImageLayout`. -/
inductive ImageLayout
  | Undefined
  | Present
  | TransferDstOptimal
  | TransferSrcOptimal
  | AttachmentOptimal
  | ReadOnlyOptimal
  | General
deriving DecidableEq, Repr

/-- Image aspect selector carried on image qualifiers (opaque to the
executor: it is copied into the derived barrier untouched). -/
inductive ImageAspect
  | Color
  | Depth
  | Stencil
  | DepthStencil
deriving DecidableEq, Repr

/-- `ImageAccess` from src/task.rs lines 590-613. -/
inductive ImageAccess
  | None
  | ShaderReadOnly
  | VertexShaderReadOnly
  | FragmentShaderReadOnly
  | ComputeShaderReadOnly
  | ShaderWriteOnly
  | VertexShaderWriteOnly
  | FragmentShaderWriteOnly
  | ComputeShaderWriteOnly
  | ShaderReadWrite
  | VertexShaderReadWrite
  | FragmentShaderReadWrite
  | ComputeShaderReadWrite
  | TransferRead
  | TransferWrite
  | ColorAttachment
  | DepthAttachment
  | DepthAttachmentReadOnly
  | DepthStencilAttachment
  | Present
deriving DecidableEq, Repr

/-- `BufferAccess` from src/task.rs lines 699-719. -/
inductive BufferAccess
  | None
  | ShaderReadOnly
  | VertexShaderReadOnly
  | FragmentShaderReadOnly
  | ComputeShaderReadOnly
  | ShaderWriteOnly
  | VertexShaderWriteOnly
  | FragmentShaderWriteOnly
  | ComputeShaderWriteOnly
  | ShaderReadWrite
  | VertexShaderReadWrite
  | FragmentShaderReadWrite
  | ComputeShaderReadWrite
  | TransferRead
  | TransferWrite
  | HostTransferRead
  | HostTransferWrite
deriving DecidableEq, Repr

/-- `impl From<ImageAccess> for PipelineStage` (src/task.rs 615-643). -/
def ImageAccess.toPipelineStage : ImageAccess → PipelineStage
  | .None => PipelineStage.empty
  | .Present => PipelineStage.ALL_COMMANDS
  | .TransferWrite | .TransferRead => PipelineStage.TRANSFER
  | .DepthAttachmentReadOnly | .DepthAttachment | .DepthStencilAttachment =>
      PipelineStage.EARLY_FRAGMENT_TESTS ||| PipelineStage.LATE_FRAGMENT_TESTS
  | .ShaderReadWrite | .ShaderWriteOnly | .ShaderReadOnly =>
      PipelineStage.ALL_GRAPHICS ||| PipelineStage.COMPUTE_SHADER
  | .VertexShaderReadWrite | .VertexShaderWriteOnly | .VertexShaderReadOnly =>
      PipelineStage.VERTEX_SHADER
  | .FragmentShaderReadWrite | .FragmentShaderWriteOnly | .FragmentShaderReadOnly =>
      PipelineStage.FRAGMENT_SHADER
  | .ComputeShaderReadWrite | .ComputeShaderWriteOnly | .ComputeShaderReadOnly =>
      PipelineStage.COMPUTE_SHADER
  | .ColorAttachment => PipelineStage.COLOR_ATTACHMENT_OUTPUT

/-- `impl From<ImageAccess> for ImageLayout` (src/task.rs 645-670). -/
def ImageAccess.toImageLayout : ImageAccess → ImageLayout
  | .None => ImageLayout.Undefined
  | .Present => ImageLayout.Present
  | .TransferWrite => ImageLayout.TransferDstOptimal
  | .TransferRead => ImageLayout.TransferSrcOptimal
  | .DepthStencilAttachment => ImageLayout.AttachmentOptimal
  | .DepthAttachment => ImageLayout.AttachmentOptimal
  | .DepthAttachmentReadOnly | .VertexShaderReadOnly | .FragmentShaderReadOnly
  | .ComputeShaderReadOnly | .ShaderReadOnly => ImageLayout.ReadOnlyOptimal
  | .ShaderWriteOnly | .VertexShaderWriteOnly | .FragmentShaderWriteOnly
  | .ComputeShaderWriteOnly | .VertexShaderReadWrite | .FragmentShaderReadWrite
  | .ComputeShaderReadWrite | .ShaderReadWrite => ImageLayout.General
  | .ColorAttachment => ImageLayout.AttachmentOptimal

/-- `impl From<ImageAccess> for Access` (src/task.rs 672-697). -/
def ImageAccess.toAccess : ImageAccess → Access
  | .None => Access.empty
  | .Present | .TransferRead | .DepthAttachmentReadOnly | .ShaderReadOnly
  | .VertexShaderReadOnly | .FragmentShaderReadOnly | .ComputeShaderReadOnly =>
      Access.READ
  | .TransferWrite | .ShaderWriteOnly | .VertexShaderWriteOnly
  | .FragmentShaderWriteOnly | .ComputeShaderWriteOnly => Access.WRITE
  | .ColorAttachment | .DepthAttachment | .DepthStencilAttachment
  | .ShaderReadWrite | .VertexShaderReadWrite | .FragmentShaderReadWrite
  | .ComputeShaderReadWrite => Access.READ ||| Access.WRITE

/-- `impl From<BufferAccess> for PipelineStage` (src/task.rs 721-749). -/
def BufferAccess.toPipelineStage : BufferAccess → PipelineStage
  | .None => PipelineStage.empty
  | .ShaderReadOnly => PipelineStage.ALL_GRAPHICS ||| PipelineStage.COMPUTE_SHADER
  | .VertexShaderReadOnly => PipelineStage.VERTEX_SHADER
  | .FragmentShaderReadOnly => PipelineStage.FRAGMENT_SHADER
  | .ComputeShaderReadOnly => PipelineStage.COMPUTE_SHADER
  | .ShaderWriteOnly => PipelineStage.ALL_GRAPHICS ||| PipelineStage.COMPUTE_SHADER
  | .VertexShaderWriteOnly => PipelineStage.VERTEX_SHADER
  | .FragmentShaderWriteOnly => PipelineStage.FRAGMENT_SHADER
  | .ComputeShaderWriteOnly => PipelineStage.COMPUTE_SHADER
  | .ShaderReadWrite => PipelineStage.ALL_GRAPHICS ||| PipelineStage.COMPUTE_SHADER
  | .VertexShaderReadWrite => PipelineStage.VERTEX_SHADER
  | .FragmentShaderReadWrite => PipelineStage.FRAGMENT_SHADER
  | .ComputeShaderReadWrite => PipelineStage.COMPUTE_SHADER
  | .TransferRead => PipelineStage.TRANSFER
  | .TransferWrite => PipelineStage.TRANSFER
  | .HostTransferRead => PipelineStage.HOST
  | .HostTransferWrite => PipelineStage.HOST

/-- `impl From<BufferAccess> for Access` (src/task.rs 751-773). -/
def BufferAccess.toAccess : BufferAccess → Access
  | .None => Access.empty
  | .HostTransferRead | .TransferRead | .ShaderReadOnly | .VertexShaderReadOnly
  | .FragmentShaderReadOnly | .ComputeShaderReadOnly => Access.READ
  | .HostTransferWrite | .TransferWrite | .ShaderWriteOnly
  | .VertexShaderWriteOnly | .FragmentShaderWriteOnly
  | .ComputeShaderWriteOnly => Access.WRITE
  | .ShaderReadWrite | .VertexShaderReadWrite | .FragmentShaderReadWrite
  | .ComputeShaderReadWrite => Access.READ ||| Access.WRITE

/-- Opaque buffer handle (the crate's `Buffer` newtype over an id). -/
abbrev Buffer := Nat

/-- Opaque image handle (the crate's `Image` newtype over an id). -/
abbrev Image := Nat

/-- A task's resource descriptor resolved against the live context
(`Qualifier`, src/task.rs 796-800). -/
inductive Qualifier
  | buffer (b : Buffer) (access : BufferAccess)
  | image (img : Image) (access : ImageAccess) (aspect : ImageAspect)
deriving DecidableEq, Repr

/-- One resource sub-barrier (`Barrier`). The `buffer`/`image` field records
the qualifier index `i` from the enumerate loop, exactly as the source does. -/
inductive Barrier
  | buffer (buffer : Nat) (offset : Nat) (size : Nat)
      (src_access dst_access : Access)
  | image (image : Nat) (old_layout new_layout : ImageLayout)
      (src_access dst_access : Access) (image_aspect : ImageAspect)
deriving DecidableEq, Repr

/-- A pipeline-barrier command: a stage pair plus its merged sub-barriers
(`PipelineBarrier`). -/
structure PipelineBarrier where
  src_stage : PipelineStage
  dst_stage : PipelineStage
  barriers : List Barrier
deriving DecidableEq, Repr

/-- The hazard-tracking tables built afresh inside each `render` call
(src/task.rs 380-381). Lookup of an absent key defaults to the `None`
access, mirroring `entry(..).or_default()`. -/
structure HazardState where
  last_image_access : List (Image × ImageAccess)
  last_buffer_access : List (Buffer × BufferAccess)
deriving Repr

def HazardState.initial : HazardState := ⟨[], []⟩

def HazardState.lookupBuffer (s : HazardState) (b : Buffer) : BufferAccess :=
  (s.last_buffer_access.lookup b).getD BufferAccess.None

def HazardState.lookupImage (s : HazardState) (img : Image) : ImageAccess :=
  (s.last_image_access.lookup img).getD ImageAccess.None

def HazardState.insertBuffer (s : HazardState) (b : Buffer) (a : BufferAccess) :
    HazardState :=
  { s with last_buffer_access := (b, a) :: s.last_buffer_access }

def HazardState.insertImage (s : HazardState) (img : Image) (a : ImageAccess) :
    HazardState :=
  { s with last_image_access := (img, a) :: s.last_image_access }

/-- One iteration of the per-qualifier loop (src/task.rs 393-441): derive the
naive barrier from the previous access in the hazard table (default `None`)
to the requested access, and update the table. `bufSize` is the device
resource table's byte-size lookup; `i` is the enumerate index. -/
def processQualifier (bufSize : Buffer → Nat) (s : HazardState) (i : Nat) :
    Qualifier → PipelineBarrier × HazardState
  | .buffer b dst =>
      let src := s.lookupBuffer b
      ({ src_stage := src.toPipelineStage
         dst_stage := dst.toPipelineStage
         barriers := [Barrier.buffer i 0 (bufSize b) src.toAccess dst.toAccess] },
       s.insertBuffer b dst)
  | .image img dst aspect =>
      let src := s.lookupImage img
      ({ src_stage := src.toPipelineStage
         dst_stage := dst.toPipelineStage
         barriers := [Barrier.image i src.toImageLayout dst.toImageLayout
            src.toAccess dst.toAccess aspect] },
       s.insertImage img dst)

/-- The whole per-qualifier loop for one task: naive barriers in qualifier
order, threading the hazard table through strictly left to right. -/
def processQualifiers (bufSize : Buffer → Nat) :
    HazardState → Nat → List Qualifier → List PipelineBarrier × HazardState
  | s, _, [] => ([], s)
  | s, i, q :: qs =>
      let (pb, s1) := processQualifier bufSize s i q
      let (pbs, s2) := processQualifiers bufSize s1 (i + 1) qs
      (pb :: pbs, s2)

/-- Key of the `smart_barriers` HashMap: the `(src_stage, dst_stage)` pair. -/
def PipelineBarrier.key (pb : PipelineBarrier) : PipelineStage × PipelineStage :=
  (pb.src_stage, pb.dst_stage)

/-- Insert one naive barrier into the batch map (src/task.rs 446-458): if a
batch with the same stage pair exists its sub-barrier list is extended,
otherwise a new batch is added. The map is kept as a list of batches with
pairwise distinct keys. -/
def smartAdd : List PipelineBarrier → PipelineBarrier → List PipelineBarrier
  | [], nb => [nb]
  | pb :: rest, nb =>
      if pb.key = nb.key then
        { pb with barriers := pb.barriers ++ nb.barriers } :: rest
      else
        pb :: smartAdd rest nb

/-- The per-task batching pass (`smart_barriers`, src/task.rs 443-458). -/
def smartBarriers (naive : List PipelineBarrier) : List PipelineBarrier :=
  naive.foldl smartAdd []

/-- A frame submit request (`Submit`): optional wait/signal semaphore
handles. -/
structure Submit where
  wait_semaphore : Option Nat
  signal_semaphore : Option Nat
deriving DecidableEq, Repr

/-- A frame present request (`Present`): the wait semaphore handle. -/
structure Present where
  wait_semaphore : Nat
deriving DecidableEq, Repr

/-- One task node as seen by a single `render` call, after the descriptor
accessors have been resolved against the caller's context: `qualifiers` is
the resolved resource list in declaration order; `fails` says whether this
task's barrier emission or body `.unwrap()` panics; `setSubmit`/`setPresent`
are the writes the body makes to the frame's submit/present slots (a `some`
overwrites the slot, last writer wins). -/
structure TaskModel where
  qualifiers : List Qualifier
  fails : Bool
  setSubmit : Option Submit
  setPresent : Option Present

/-- A pipeline-barrier command recorded into the frame's command buffer
(`commands.pipeline_barrier`, src/task.rs 469-471). Draw/dispatch commands
from task bodies are outside the hazard machinery and not modelled. -/
inductive Command
  | pipelineBarrier (pb : PipelineBarrier)
deriving DecidableEq, Repr

/-- State threaded through the per-task loop of `render`
(src/task.rs 383-473). -/
structure LoopState where
  hazard : HazardState
  commands : List Command
  submit : Option Submit
  present : Option Present

def LoopState.initial : LoopState :=
  { hazard := HazardState.initial, commands := [], submit := none, present := none }

/-- One iteration of the per-task loop: derive the naive barriers (updating
the hazard tables), batch them, record one command per batch, then run the
body. Returns the new loop state and whether the task panicked; the hazard
updates and barrier recording happen before the panic point, as in the
source. -/
def runTask (bufSize : Buffer → Nat) (ls : LoopState) (t : TaskModel) :
    LoopState × Bool :=
  let (naive, hazard1) := processQualifiers bufSize ls.hazard 0 t.qualifiers
  let batched := smartBarriers naive
  let cmds := ls.commands ++ batched.map Command.pipelineBarrier
  if t.fails then
    ({ ls with hazard := hazard1, commands := cmds }, true)
  else
    ({ hazard := hazard1
       commands := cmds
       submit := (t.setSubmit).orElse fun _ => ls.submit
       present := (t.setPresent).orElse fun _ => ls.present }, false)

/-- The per-task loop: strictly in declaration order, stopping at the first
panicking task (the `.unwrap()` unwinds out of `render`). -/
def runTasks (bufSize : Buffer → Nat) :
    LoopState → List TaskModel → LoopState × Bool
  | ls, [] => (ls, false)
  | ls, t :: ts =>
      let (ls1, panicked) := runTask bufSize ls t
      if panicked then (ls1, true) else runTasks bufSize ls1 ts

/-- The graph's persistent mutable state relevant to the claims: the frame
index kept in the swapchain, and the frame-timing clock guarded by the
graph's mutex (`RenderGraphModify`). Instants are modelled as naturals. -/
structure GraphState where
  current_frame : Nat
  last_instant : Nat
  current_instant : Nat
deriving DecidableEq, Repr

/-- Everything one `render` call reads from outside the graph state: whether
the current slot's fence is already signaled (zero-timeout wait outcome),
the value `Instant::now()` returns, the swapchain's last acquired image
index, the device's buffer-size table, the frame-in-flight count `N`
(`MAX_FRAMES_IN_FLIGHT`), and the resolved task list. -/
structure RenderInput where
  fenceSignaled : Bool
  now : Nat
  acquiredImage : Nat
  bufSize : Buffer → Nat
  N : Nat
  tasks : List TaskModel

/-- The single `queue_submit` call of a frame (src/task.rs 479-530): the
semaphores from the submit request, the index of the frame's command buffer,
and the index of the slot fence passed as the submission fence. -/
structure SubmitCall where
  wait_semaphore : Option Nat
  signal_semaphore : Option Nat
  commandBuffer : Nat
  fence : Nat
deriving DecidableEq, Repr

/-- The single `queue_present` call of a frame (src/task.rs 532-573). -/
structure PresentCall where
  wait_semaphore : Nat
  imageIndex : Nat
deriving DecidableEq, Repr

/-- Everything one `render` call did: the state left behind, the barrier
commands recorded into the slot's command buffer, the submission and the
present if any, whether the slot fence was reset, and whether the call
unwound in the task loop (an `.unwrap()` panic — `render` returns `()` in
the source, so a task failure never comes back as an error value). -/
structure RenderOutcome where
  state : GraphState
  recorded : List Command
  submitted : Option SubmitCall
  presented : Option PresentCall
  fenceReset : Bool
  panicked : Bool

/-- `RenderGraph::render` (src/task.rs 159-587). Zero-timeout fence wait: on
timeout return at once, touching nothing. Otherwise advance the clock, reset
the fence, run the task loop; a panicking task aborts everything after it
(no submit, no present, no rotation). On a clean loop: submit iff some task
set the submit slot (command buffer and fence of the current slot), present
iff some task set the present slot, then rotate `current_frame` modulo `N`. -/
def render (inp : RenderInput) (g : GraphState) : RenderOutcome :=
  if inp.fenceSignaled then
    let g1 : GraphState :=
      { g with last_instant := g.current_instant, current_instant := inp.now }
    let (ls, panicked) := runTasks inp.bufSize LoopState.initial inp.tasks
    if panicked then
      { state := g1, recorded := ls.commands, submitted := none,
        presented := none, fenceReset := true, panicked := true }
    else
      { state := { g1 with current_frame := (g.current_frame + 1) % inp.N }
        recorded := ls.commands
        submitted := ls.submit.map fun s =>
          { wait_semaphore := s.wait_semaphore
            signal_semaphore := s.signal_semaphore
            commandBuffer := g.current_frame
            fence := g.current_frame }
        presented := ls.present.map fun p =>
          { wait_semaphore := p.wait_semaphore, imageIndex := inp.acquiredImage }
        fenceReset := true
        panicked := false }
  else
    { state := g, recorded := [], submitted := none, presented := none,
      fenceReset := false, panicked := false }

/-- The single error kind of the builder (`Error::Creation`). -/
inductive Error
  | Creation
deriving DecidableEq, Repr

/-- A fence as created by `complete`: its handle and whether it was created
already signaled (`FenceCreateFlags::SIGNALED`). -/
structure Fence where
  handle : Nat
  signaled : Bool
deriving DecidableEq, Repr

/-- The graph `complete` returns on success: the allocated per-frame command
buffers and fences, plus the clock baseline (`RenderGraphModify`). -/
structure Graph where
  command_buffers : List Nat
  fences : List Fence
  last_instant : Nat
  current_instant : Nat
deriving DecidableEq, Repr

/-- The fence-allocation loop of `complete` (src/task.rs 96-103): create one
signaled fence per index in order, bailing out at the first device failure. -/
def allocFences (createFence : Nat → Except Unit Nat) :
    List Nat → Except Unit (List Fence)
  | [] => .ok []
  | i :: is =>
      match createFence i with
      | .error e => .error e
      | .ok h =>
          match allocFences createFence is with
          | .error e => .error e
          | .ok fs => .ok ({ handle := h, signaled := true } :: fs)

/-- `RenderGraphBuilder::complete` (src/task.rs 63-120). `allocCmdBufs` is
the device's answer to the one `allocate_command_buffers` call requesting
`N` buffers; `createFence` its answer to each `create_fence` call. Either
device failure is mapped to `Error::Creation` and no graph is returned. On
success the clock baseline sets both instants to the same `now`. -/
def complete (allocCmdBufs : Except Unit (List Nat))
    (createFence : Nat → Except Unit Nat) (N : Nat) (now : Nat) :
    Except Error Graph :=
  match allocCmdBufs with
  | .error _ => .error .Creation
  | .ok cbs =>
      match allocFences createFence (List.range N) with
      | .error _ => .error .Creation
      | .ok fs =>
          .ok { command_buffers := cbs, fences := fs,
                last_instant := now, current_instant := now }

/-- The access of the last descriptor touching buffer `b` in a qualifier
list, `none` when no descriptor touches it. -/
def lastBufferAccessIn : List Qualifier → Buffer → Option BufferAccess
  | [], _ => none
  | q :: qs, b =>
      match lastBufferAccessIn qs b with
      | some a => some a
      | none =>
          match q with
          | .buffer b' a => if b' = b then some a else none
          | .image _ _ _ => none

/-- The access of the last descriptor touching image `img` in a qualifier
list, `none` when no descriptor touches it. -/
def lastImageAccessIn : List Qualifier → Image → Option ImageAccess
  | [], _ => none
  | q :: qs, img =>
      match lastImageAccessIn qs img with
      | some a => some a
      | none =>
          match q with
          | .image img' a _ => if img' = img then some a else none
          | .buffer _ _ => none

/-- The hazard tables after the qualifier loops of a task list have run, in
task order, threading the state exactly as the executor does. -/
def frameHazard (bufSize : Buffer → Nat) (s : HazardState) :
    List TaskModel → HazardState
  | [] => s
  | t :: ts => frameHazard bufSize (processQualifiers bufSize s 0 t.qualifiers).2 ts

/-- The stage-pair keys of the naive barriers of each task of a frame, one
inner list per task, threading the hazard state in task order. -/
def frameTaskKeys (bufSize : Buffer → Nat) (s : HazardState) :
    List TaskModel → List (List (PipelineStage × PipelineStage))
  | [] => []
  | t :: ts =>
      let (naive, s1) := processQualifiers bufSize s 0 t.qualifiers
      naive.map PipelineBarrier.key :: frameTaskKeys bufSize s1 ts

/-- A sequence of `render` calls, each feeding its state to the next. -/
def renderSeq (g : GraphState) : List RenderInput → GraphState
  | [] => g
  | inp :: rest => renderSeq (render inp g).state rest

/-! ### Helper lemmas -/

theorem HazardState.lookupBuffer_insertBuffer (s : HazardState) (b b' : Buffer)
    (a : BufferAccess) :
    (s.insertBuffer b' a).lookupBuffer b =
      if b = b' then a else s.lookupBuffer b := by
  simp only [HazardState.insertBuffer, HazardState.lookupBuffer, List.lookup]
  by_cases h : b = b'
  · simp [h]
  · have hb : (b == b') = false := beq_eq_false_iff_ne.mpr h
    simp [h, hb]

theorem HazardState.lookupImage_insertImage (s : HazardState) (i i' : Image)
    (a : ImageAccess) :
    (s.insertImage i' a).lookupImage i =
      if i = i' then a else s.lookupImage i := by
  simp only [HazardState.insertImage, HazardState.lookupImage, List.lookup]
  by_cases h : i = i'
  · simp [h]
  · have hb : (i == i') = false := beq_eq_false_iff_ne.mpr h
    simp [h, hb]

theorem HazardState.lookupBuffer_insertImage (s : HazardState) (b : Buffer)
    (i : Image) (a : ImageAccess) :
    (s.insertImage i a).lookupBuffer b = s.lookupBuffer b := rfl

theorem HazardState.lookupImage_insertBuffer (s : HazardState) (i : Image)
    (b : Buffer) (a : BufferAccess) :
    (s.insertBuffer b a).lookupImage i = s.lookupImage i := rfl

/-! ### C5 -/

/-- C5: in a graph of two tasks where task A declares buffer `0` with access
`ComputeShaderWriteOnly` and task B declares the same buffer with
`ComputeShaderReadOnly`, the frame records exactly one merged barrier batch
before task B, with `src_stage = dst_stage = COMPUTE_SHADER` and one buffer
sub-barrier carrying `src_access = WRITE`, `dst_access = READ`. -/
theorem compute_write_then_read_scenario (bufSize : Buffer → Nat) :
    (runTasks bufSize LoopState.initial
        [{ qualifiers := [.buffer 0 .ComputeShaderWriteOnly], fails := false,
           setSubmit := none, setPresent := none },
         { qualifiers := [.buffer 0 .ComputeShaderReadOnly], fails := false,
           setSubmit := none, setPresent := none }]).1.commands =
      [Command.pipelineBarrier
        { src_stage := PipelineStage.empty
          dst_stage := PipelineStage.COMPUTE_SHADER
          barriers := [.buffer 0 0 (bufSize 0) Access.empty Access.WRITE] },
       Command.pipelineBarrier
        { src_stage := PipelineStage.COMPUTE_SHADER
          dst_stage := PipelineStage.COMPUTE_SHADER
          barriers := [.buffer 0 0 (bufSize 0) Access.WRITE Access.READ] }] := rfl

/-! ### C4 -/

/-- C4: a resource not previously touched in the frame (its hazard-table
entry is absent) gets its first barrier derived from the default access
`None`: empty `src_stage`, and for images `old_layout = Undefined`; a first
use of an image as a color attachment yields exactly the barrier
`Undefined → AttachmentOptimal` with empty `src_stage`. -/
theorem first_use_barrier_from_none (bufSize : Buffer → Nat) (s : HazardState)
    (i : Nat) (img : Image) (b : Buffer) (ia : ImageAccess) (ba : BufferAccess)
    (asp : ImageAspect)
    (himg : s.last_image_access.lookup img = none)
    (hbuf : s.last_buffer_access.lookup b = none) :
    (processQualifier bufSize s i (.image img ia asp)).1 =
      { src_stage := PipelineStage.empty
        dst_stage := ia.toPipelineStage
        barriers := [.image i ImageLayout.Undefined ia.toImageLayout
          Access.empty ia.toAccess asp] }
  ∧ (processQualifier bufSize s i (.buffer b ba)).1 =
      { src_stage := PipelineStage.empty
        dst_stage := ba.toPipelineStage
        barriers := [.buffer i 0 (bufSize b) Access.empty ba.toAccess] }
  ∧ (processQualifier bufSize s i (.image img .ColorAttachment asp)).1 =
      { src_stage := PipelineStage.empty
        dst_stage := PipelineStage.COLOR_ATTACHMENT_OUTPUT
        barriers := [.image i ImageLayout.Undefined ImageLayout.AttachmentOptimal
          Access.empty (Access.READ ||| Access.WRITE) asp] } := by
  have hi : s.lookupImage img = ImageAccess.None := by
    simp [HazardState.lookupImage, himg]
  have hb : s.lookupBuffer b = BufferAccess.None := by
    simp [HazardState.lookupBuffer, hbuf]
  refine ⟨?_, ?_, ?_⟩ <;>
    simp [processQualifier, hi, hb, ImageAccess.toPipelineStage,
      ImageAccess.toImageLayout, ImageAccess.toAccess, BufferAccess.toPipelineStage,
      BufferAccess.toAccess, PipelineStage.empty, Access.empty]

/-- Witness for C4 at a concrete fresh state. -/
theorem first_use_barrier_from_none_witness :
    (processQualifier (fun _ => 8) HazardState.initial 0
        (.image 3 .ColorAttachment .Color)).1 =
      { src_stage := PipelineStage.empty
        dst_stage := PipelineStage.COLOR_ATTACHMENT_OUTPUT
        barriers := [.image 0 ImageLayout.Undefined ImageLayout.AttachmentOptimal
          Access.empty (Access.READ ||| Access.WRITE) .Color] } :=
  (first_use_barrier_from_none (fun _ => 8) HazardState.initial 0 3 5
      .ColorAttachment .None .Color rfl rfl).2.2

/-! ### C10 -/

/-- C10: every buffer sub-barrier the naive derivation produces covers its
entire buffer: its offset is 0 and its size is the byte size, as looked up
in the device resource table, of the buffer of the very qualifier the
barrier records — the sub-barrier stores the enumerate index `idx`, the
qualifier at position `idx - i` of the processed list is a buffer qualifier,
and the size equals that buffer's table size, whatever the declared
access. -/
theorem buffer_barriers_cover_whole_buffer (bufSize : Buffer → Nat)
    (s : HazardState) (i : Nat) (qs : List Qualifier) :
    ∀ pb ∈ (processQualifiers bufSize s i qs).1, ∀ br ∈ pb.barriers,
      ∀ idx off sz sa da, br = Barrier.buffer idx off sz sa da →
        off = 0 ∧ i ≤ idx ∧ ∃ b a,
          qs[idx - i]? = some (Qualifier.buffer b a) ∧ sz = bufSize b := by
  induction qs generalizing s i with
  | nil => intro pb hpb; simp [processQualifiers] at hpb
  | cons q qs ih =>
      intro pb hpb br hbr idx off sz sa da hbe
      rcases hq : processQualifier bufSize s i q with ⟨pb0, s1⟩
      rcases hqs : processQualifiers bufSize s1 (i + 1) qs with ⟨pbs, s2⟩
      simp only [processQualifiers, hq, hqs, List.mem_cons] at hpb
      rcases hpb with hpb | hpb
      · subst hpb
        cases q with
        | buffer b a =>
            simp only [processQualifier] at hq
            injection hq with h1 _
            subst h1
            simp only [List.mem_singleton] at hbr
            subst hbr
            injection hbe with e1 e2 e3
            subst e1
            refine ⟨e2.symm, Nat.le_refl _, b, a, ?_, e3.symm⟩
            simp [Nat.sub_self]
        | image im a asp =>
            simp only [processQualifier] at hq
            injection hq with h1 _
            subst h1
            simp only [List.mem_singleton] at hbr
            subst hbr
            cases hbe
      · obtain ⟨hoff, hle, b, a, hget, hsz⟩ :=
          ih s1 (i + 1) pb (by rw [hqs]; exact hpb) br hbr idx off sz sa da hbe
        refine ⟨hoff, Nat.le_of_succ_le hle, b, a, ?_, hsz⟩
        have hidx : idx - i = (idx - (i + 1)) + 1 := by omega
        rw [hidx, List.getElem?_cons_succ]
        exact hget

/-- Witness for C10 on a task declaring two buffers with different table
sizes: the second barrier's size is the size of its own buffer (handle 9,
size 32), not of the other declared buffer (handle 7, size 64). -/
theorem buffer_barriers_cover_whole_buffer_witness :
    0 = 0 ∧ 0 ≤ 1 ∧ ∃ b a,
      [Qualifier.buffer 7 BufferAccess.TransferWrite,
        Qualifier.buffer 9 BufferAccess.ComputeShaderReadOnly][1 - 0]? =
          some (Qualifier.buffer b a)
      ∧ 32 = (fun x => if x = 7 then 64 else 32) b :=
  buffer_barriers_cover_whole_buffer (fun x => if x = 7 then 64 else 32)
    HazardState.initial 0
    [Qualifier.buffer 7 .TransferWrite, Qualifier.buffer 9 .ComputeShaderReadOnly]
    { src_stage := PipelineStage.empty, dst_stage := PipelineStage.COMPUTE_SHADER,
      barriers := [Barrier.buffer 1 0 32 Access.empty Access.READ] }
    (by decide)
    (Barrier.buffer 1 0 32 Access.empty Access.READ) (by decide)
    1 0 32 Access.empty Access.READ rfl

/-! ### Loop projection lemmas -/

theorem runTask_hazard (bufSize : Buffer → Nat) (ls : LoopState) (t : TaskModel) :
    ((runTask bufSize ls t).1).hazard =
      (processQualifiers bufSize ls.hazard 0 t.qualifiers).2 := by
  rcases hq : processQualifiers bufSize ls.hazard 0 t.qualifiers with ⟨naive, s1⟩
  simp only [runTask, hq]
  cases t.fails <;> simp

theorem runTask_panicked (bufSize : Buffer → Nat) (ls : LoopState) (t : TaskModel) :
    (runTask bufSize ls t).2 = t.fails := by
  rcases hq : processQualifiers bufSize ls.hazard 0 t.qualifiers with ⟨naive, s1⟩
  simp only [runTask, hq]
  cases t.fails <;> simp

theorem runTask_commands (bufSize : Buffer → Nat) (ls : LoopState) (t : TaskModel) :
    ((runTask bufSize ls t).1).commands =
      ls.commands ++ (smartBarriers
        (processQualifiers bufSize ls.hazard 0 t.qualifiers).1).map
          Command.pipelineBarrier := by
  rcases hq : processQualifiers bufSize ls.hazard 0 t.qualifiers with ⟨naive, s1⟩
  simp only [runTask, hq]
  cases t.fails <;> simp

theorem runTask_submit_none (bufSize : Buffer → Nat) (ls : LoopState)
    (t : TaskModel) (h : t.setSubmit = none) :
    ((runTask bufSize ls t).1).submit = ls.submit := by
  rcases hq : processQualifiers bufSize ls.hazard 0 t.qualifiers with ⟨naive, s1⟩
  simp only [runTask, hq]
  cases t.fails <;> simp [h, Option.orElse]

theorem runTask_present_none (bufSize : Buffer → Nat) (ls : LoopState)
    (t : TaskModel) (h : t.setPresent = none) :
    ((runTask bufSize ls t).1).present = ls.present := by
  rcases hq : processQualifiers bufSize ls.hazard 0 t.qualifiers with ⟨naive, s1⟩
  simp only [runTask, hq]
  cases t.fails <;> simp [h, Option.orElse]

theorem runTasks_submit_none (bufSize : Buffer → Nat) (ts : List TaskModel) :
    ∀ ls : LoopState, (∀ t ∈ ts, t.setSubmit = none) →
      ((runTasks bufSize ls ts).1).submit = ls.submit := by
  induction ts with
  | nil => intro ls _; rfl
  | cons t ts ih =>
      intro ls h
      rcases hr : runTask bufSize ls t with ⟨ls1, p⟩
      have hsub : ls1.submit = ls.submit := by
        have := runTask_submit_none bufSize ls t (h t (List.mem_cons_self _ _))
        rw [hr] at this; exact this
      simp only [runTasks, hr]
      cases p
      · simp only [if_neg Bool.false_ne_true]
        rw [ih ls1 fun u hu => h u (List.mem_cons_of_mem _ hu), hsub]
      · simpa using hsub

theorem runTasks_present_none (bufSize : Buffer → Nat) (ts : List TaskModel) :
    ∀ ls : LoopState, (∀ t ∈ ts, t.setPresent = none) →
      ((runTasks bufSize ls ts).1).present = ls.present := by
  induction ts with
  | nil => intro ls _; rfl
  | cons t ts ih =>
      intro ls h
      rcases hr : runTask bufSize ls t with ⟨ls1, p⟩
      have hsub : ls1.present = ls.present := by
        have := runTask_present_none bufSize ls t (h t (List.mem_cons_self _ _))
        rw [hr] at this; exact this
      simp only [runTasks, hr]
      cases p
      · simp only [if_neg Bool.false_ne_true]
        rw [ih ls1 fun u hu => h u (List.mem_cons_of_mem _ hu), hsub]
      · simpa using hsub

theorem runTasks_ok (bufSize : Buffer → Nat) (ts : List TaskModel) :
    ∀ ls : LoopState, (∀ t ∈ ts, t.fails = false) →
      (runTasks bufSize ls ts).2 = false := by
  induction ts with
  | nil => intro ls _; rfl
  | cons t ts ih =>
      intro ls h
      rcases hr : runTask bufSize ls t with ⟨ls1, p⟩
      have hp : p = false := by
        have := runTask_panicked bufSize ls t
        rw [hr] at this
        simp only at this
        rw [this]; exact h t (List.mem_cons_self _ _)
      subst hp
      simp only [runTasks, hr, if_neg Bool.false_ne_true]
      exact ih ls1 fun u hu => h u (List.mem_cons_of_mem _ hu)

/-! ### C3 -/

/-- C3: if the slot fence is not yet signaled, `render` returns at once with
zero mutations: state unchanged, nothing recorded, nothing submitted or
presented, fence not reset. If it is signaled, the fence is reset and the
clock advances: `last_instant` becomes the old `current_instant` and
`current_instant` becomes now. -/
theorem render_backpressure_and_clock (inp : RenderInput) (g : GraphState) :
    (inp.fenceSignaled = false →
      render inp g = ⟨g, [], none, none, false, false⟩)
  ∧ (inp.fenceSignaled = true →
      (render inp g).fenceReset = true
      ∧ (render inp g).state.last_instant = g.current_instant
      ∧ (render inp g).state.current_instant = inp.now) := by
  constructor
  · intro hf
    simp [render, hf]
  · intro hf
    rcases hr : runTasks inp.bufSize LoopState.initial inp.tasks with ⟨ls, p⟩
    simp only [render, hf, if_true, hr]
    cases p <;> simp

/-- Witness for C3: a signaled and a skipped frame at concrete inputs. -/
theorem render_backpressure_and_clock_witness :
    (render ⟨false, 9, 0, (fun _ => 1), 2, []⟩ ⟨0, 3, 7⟩ =
      ⟨⟨0, 3, 7⟩, [], none, none, false, false⟩)
  ∧ ((render ⟨true, 9, 0, (fun _ => 1), 2, []⟩ ⟨0, 3, 7⟩).state.last_instant = 7) :=
  ⟨(render_backpressure_and_clock _ _).1 rfl,
   ((render_backpressure_and_clock _ _).2 rfl).2.1⟩

/-! ### C6 -/

/-- C6: submit and present are optional and independent per frame. If no
task writes the submit slot, no submission happens; if no task writes the
present slot, no present happens (whether or not a submit does); when a
submission happens it is the single one of the frame and carries the current
slot's command buffer with the current slot's fence. -/
theorem submit_present_optional_independent (inp : RenderInput) (g : GraphState) :
    ((∀ t ∈ inp.tasks, t.setSubmit = none) → (render inp g).submitted = none)
  ∧ ((∀ t ∈ inp.tasks, t.setPresent = none) → (render inp g).presented = none)
  ∧ (∀ sc, (render inp g).submitted = some sc →
      sc.commandBuffer = g.current_frame ∧ sc.fence = g.current_frame) := by
  by_cases hf : inp.fenceSignaled
  · rcases hr : runTasks inp.bufSize LoopState.initial inp.tasks with ⟨ls, p⟩
    refine ⟨?_, ?_, ?_⟩
    · intro h
      have hs : ls.submit = none := by
        have := runTasks_submit_none inp.bufSize inp.tasks LoopState.initial h
        rw [hr] at this; exact this
      simp only [render, hf, if_true, hr]
      cases p <;> simp [hs]
    · intro h
      have hs : ls.present = none := by
        have := runTasks_present_none inp.bufSize inp.tasks LoopState.initial h
        rw [hr] at this; exact this
      simp only [render, hf, if_true, hr]
      cases p <;> simp [hs]
    · intro sc hsc
      simp only [render, hf, if_true, hr] at hsc
      cases p
      · simp only [if_neg Bool.false_ne_true, Option.map_eq_some'] at hsc
        obtain ⟨a, _, hsc2⟩ := hsc
        subst hsc2
        exact ⟨rfl, rfl⟩
      · simp at hsc
  · have hf' : inp.fenceSignaled = false := by simpa using hf
    refine ⟨?_, ?_, ?_⟩ <;> simp [render, hf']

/-- Witness for C6: a frame whose single task submits but never presents. -/
theorem submit_present_optional_independent_witness :
    ((render ⟨true, 1, 0, (fun _ => 1), 2,
        [⟨[], false, some ⟨some 4, some 5⟩, none⟩]⟩ ⟨1, 0, 0⟩).presented = none)
  ∧ (SubmitCall.commandBuffer ⟨some 4, some 5, 1, 1⟩ = 1
      ∧ SubmitCall.fence ⟨some 4, some 5, 1, 1⟩ = 1) :=
  ⟨(submit_present_optional_independent _ _).2.1 (by simp),
   (submit_present_optional_independent
      ⟨true, 1, 0, (fun _ => 1), 2, [⟨[], false, some ⟨some 4, some 5⟩, none⟩]⟩
      ⟨1, 0, 0⟩).2.2 ⟨some 4, some 5, 1, 1⟩ (by decide)⟩

/-! ### C7 -/

theorem runTasks_fail_cut (bufSize : Buffer → Nat) (t : TaskModel)
    (ts2 : List TaskModel) (ht : t.fails = true) :
    ∀ (ts1 : List TaskModel) (ls : LoopState), (∀ u ∈ ts1, u.fails = false) →
      runTasks bufSize ls (ts1 ++ t :: ts2) = runTasks bufSize ls (ts1 ++ [t])
      ∧ (runTasks bufSize ls (ts1 ++ [t])).2 = true := by
  intro ts1
  induction ts1 with
  | nil =>
      intro ls _
      rcases hr : runTask bufSize ls t with ⟨ls1, p⟩
      have hp : p = true := by
        have := runTask_panicked bufSize ls t
        rw [hr] at this; simp only at this; rw [this]; exact ht
      subst hp
      constructor <;> simp [runTasks, hr]
  | cons u ts1 ih =>
      intro ls h
      rcases hr : runTask bufSize ls u with ⟨ls1, p⟩
      have hp : p = false := by
        have := runTask_panicked bufSize ls u
        rw [hr] at this; simp only at this; rw [this]
        exact h u (List.mem_cons_self _ _)
      subst hp
      obtain ⟨hcut, hpan⟩ := ih ls1 fun v hv => h v (List.mem_cons_of_mem _ hv)
      constructor
      · simpa [runTasks, hr, if_neg Bool.false_ne_true] using hcut
      · simpa [runTasks, hr, if_neg Bool.false_ne_true] using hpan

/-- C7: when a task (its barrier emission or its body) fails during
`render`, the rest of the frame's task loop is aborted — the call behaves
exactly as if the later tasks were absent — the frame submits and presents
nothing, the frame slot is not rotated, and the failure is an unwind (the
`panicked` flag; `render` returns no error value: its Rust signature returns
unit and the `.unwrap()` panics). -/
theorem task_failure_fail_fast (inp : RenderInput) (g : GraphState)
    (ts1 ts2 : List TaskModel) (t : TaskModel)
    (hts : inp.tasks = ts1 ++ t :: ts2)
    (h1 : ∀ u ∈ ts1, u.fails = false) (ht : t.fails = true)
    (hf : inp.fenceSignaled = true) :
    render inp g = render { inp with tasks := ts1 ++ [t] } g
  ∧ (render inp g).panicked = true
  ∧ (render inp g).submitted = none
  ∧ (render inp g).presented = none
  ∧ (render inp g).state.current_frame = g.current_frame := by
  obtain ⟨hcut, hpan⟩ := runTasks_fail_cut inp.bufSize t ts2 ht ts1
    LoopState.initial h1
  rcases hr : runTasks inp.bufSize LoopState.initial (ts1 ++ [t]) with ⟨ls, p⟩
  have hp : p = true := by rw [hr] at hpan; exact hpan
  subst hp
  have hfull : runTasks inp.bufSize LoopState.initial inp.tasks = (ls, true) := by
    rw [hts, hcut, hr]
  refine ⟨?_, ?_⟩
  · simp only [render, hf, if_true, hfull, hr]
  · simp [render, hf, hfull]

/-- Witness for C7: one clean task, then a failing one, then a task that
must never run. -/
theorem task_failure_fail_fast_witness :
    render ⟨true, 2, 0, (fun _ => 4), 2,
        [⟨[.buffer 0 .TransferWrite], false, none, none⟩,
         ⟨[.buffer 0 .TransferRead], true, none, none⟩,
         ⟨[.buffer 1 .TransferRead], false, some ⟨none, none⟩, none⟩]⟩ ⟨0, 0, 0⟩ =
      render ⟨true, 2, 0, (fun _ => 4), 2,
        [⟨[.buffer 0 .TransferWrite], false, none, none⟩,
         ⟨[.buffer 0 .TransferRead], true, none, none⟩]⟩ ⟨0, 0, 0⟩ :=
  (task_failure_fail_fast _ ⟨0, 0, 0⟩
    [⟨[.buffer 0 .TransferWrite], false, none, none⟩]
    [⟨[.buffer 1 .TransferRead], false, some ⟨none, none⟩, none⟩]
    ⟨[.buffer 0 .TransferRead], true, none, none⟩
    rfl (by simp) rfl rfl).1

/-! ### C9 -/

theorem render_success_current_frame (inp : RenderInput) (g : GraphState)
    (hf : inp.fenceSignaled = true) (hok : ∀ t ∈ inp.tasks, t.fails = false) :
    (render inp g).state.current_frame = (g.current_frame + 1) % inp.N := by
  rcases hr : runTasks inp.bufSize LoopState.initial inp.tasks with ⟨ls, p⟩
  have hp : p = false := by
    have := runTasks_ok inp.bufSize inp.tasks LoopState.initial hok
    rw [hr] at this; exact this
  subst hp
  simp [render, hf, hr]

/-- C9: frame-slot rotation is a pure modulo cycle. A successful frame sets
`current_frame` to `(current_frame + 1) % N`; any frame keeps
`current_frame` inside `[0, N)`; and `N` consecutive successful frames bring
`current_frame` back to its starting value. -/
theorem frame_slot_rotation_modulo (N : Nat) (hN : 0 < N) :
    (∀ (inp : RenderInput) (g : GraphState), inp.fenceSignaled = true →
      (∀ t ∈ inp.tasks, t.fails = false) →
      (render inp g).state.current_frame = (g.current_frame + 1) % inp.N)
  ∧ (∀ (inp : RenderInput) (g : GraphState), inp.N = N →
      g.current_frame < N → (render inp g).state.current_frame < N)
  ∧ (∀ (inps : List RenderInput) (g : GraphState),
      inps.length = N → g.current_frame < N →
      (∀ inp ∈ inps, inp.fenceSignaled = true
        ∧ (∀ t ∈ inp.tasks, t.fails = false) ∧ inp.N = N) →
      (renderSeq g inps).current_frame = g.current_frame) := by
  have hbound : ∀ (inp : RenderInput) (g : GraphState), inp.N = N →
      g.current_frame < N → (render inp g).state.current_frame < N := by
    intro inp g hNe hg
    rcases hr : runTasks inp.bufSize LoopState.initial inp.tasks with ⟨ls, p⟩
    by_cases hf : inp.fenceSignaled
    · simp only [render, hf, if_true, hr]
      cases p
      · simpa [hNe] using Nat.mod_lt _ hN
      · simpa using hg
    · have hf' : inp.fenceSignaled = false := by simpa using hf
      simpa [render, hf'] using hg
  have hseq : ∀ (inps : List RenderInput) (g : GraphState),
      g.current_frame < N →
      (∀ inp ∈ inps, inp.fenceSignaled = true
        ∧ (∀ t ∈ inp.tasks, t.fails = false) ∧ inp.N = N) →
      (renderSeq g inps).current_frame = (g.current_frame + inps.length) % N := by
    intro inps
    induction inps with
    | nil =>
        intro g hg _
        simp [renderSeq, Nat.mod_eq_of_lt hg]
    | cons inp rest ih =>
        intro g hg h
        obtain ⟨hf, hok, hNe⟩ := h inp (List.mem_cons_self _ _)
        have h1 : (render inp g).state.current_frame = (g.current_frame + 1) % N := by
          rw [render_success_current_frame inp g hf hok, hNe]
        have h2 : (render inp g).state.current_frame < N := hbound inp g hNe hg
        have := ih (render inp g).state h2
          fun i hi => h i (List.mem_cons_of_mem _ hi)
        rw [renderSeq, this, h1, Nat.mod_add_mod]
        simp [Nat.add_assoc, Nat.add_comm 1 rest.length]
  refine ⟨fun inp g hf hok => render_success_current_frame inp g hf hok,
    hbound, fun inps g hlen hg h => ?_⟩
  rw [hseq inps g hg h, hlen, Nat.add_mod_right, Nat.mod_eq_of_lt hg]

/-- Witness for C9: two empty successful frames on a two-slot graph return
the frame index to 1. -/
theorem frame_slot_rotation_modulo_witness :
    (renderSeq ⟨1, 0, 0⟩
      [⟨true, 1, 0, (fun _ => 1), 2, []⟩,
       ⟨true, 2, 0, (fun _ => 1), 2, []⟩]).current_frame = 1 :=
  (frame_slot_rotation_modulo 2 (by decide)).2.2
    [⟨true, 1, 0, (fun _ => 1), 2, []⟩, ⟨true, 2, 0, (fun _ => 1), 2, []⟩]
    ⟨1, 0, 0⟩ rfl (by decide) (by simp)

/-! ### C8 -/

theorem allocFences_error (createFence : Nat → Except Unit Nat) :
    ∀ l : List Nat, (∃ i ∈ l, createFence i = .error ()) →
      allocFences createFence l = .error () := by
  intro l
  induction l with
  | nil => rintro ⟨i, hi, _⟩; cases hi
  | cons j l ih =>
      rintro ⟨i, hi, he⟩
      rcases List.mem_cons.mp hi with rfl | hi
      · simp [allocFences, he]
      · cases hj : createFence j with
        | error e => simp [allocFences, hj]
        | ok h => simp [allocFences, hj, ih ⟨i, hi, he⟩]

theorem allocFences_ok (createFence : Nat → Except Unit Nat) :
    ∀ l : List Nat, (∀ i ∈ l, ∃ h, createFence i = .ok h) →
      ∃ fs, allocFences createFence l = .ok fs ∧ fs.length = l.length
        ∧ ∀ f ∈ fs, f.signaled = true := by
  intro l
  induction l with
  | nil => intro _; exact ⟨[], rfl, rfl, by simp⟩
  | cons j l ih =>
      intro h
      obtain ⟨hj, hje⟩ := h j (List.mem_cons_self _ _)
      obtain ⟨fs, hfs, hlen, hsig⟩ := ih fun i hi => h i (List.mem_cons_of_mem _ hi)
      refine ⟨{ handle := hj, signaled := true } :: fs, ?_, ?_, ?_⟩
      · simp [allocFences, hje, hfs]
      · simp [hlen]
      · intro f hf
        rcases List.mem_cons.mp hf with rfl | hf
        · rfl
        · exact hsig f hf

/-- C8: `complete` returns the `Creation` error — and no graph — whenever
the device fails to allocate the command buffers or any of the `N` fences;
on success the returned graph holds the `N` command buffers and `N` fences
created in the signaled state, with the clock baseline satisfying
`last_instant = current_instant`. -/
theorem complete_creation_error_or_full_graph (allocCB : Except Unit (List Nat))
    (createFence : Nat → Except Unit Nat) (N now : Nat) :
    (allocCB = .error () → complete allocCB createFence N now = .error .Creation)
  ∧ ((∃ i, i < N ∧ createFence i = .error ()) →
      complete allocCB createFence N now = .error .Creation)
  ∧ (∀ cbs, allocCB = .ok cbs → cbs.length = N →
      (∀ i, i < N → ∃ h, createFence i = .ok h) →
      ∃ gr, complete allocCB createFence N now = .ok gr
        ∧ gr.command_buffers.length = N
        ∧ gr.fences.length = N
        ∧ (∀ f ∈ gr.fences, f.signaled = true)
        ∧ gr.last_instant = gr.current_instant) := by
  refine ⟨?_, ?_, ?_⟩
  · intro h
    simp [complete, h]
  · rintro ⟨i, hi, he⟩
    cases hcb : allocCB with
    | error e => simp [complete, hcb]
    | ok cbs =>
        have := allocFences_error createFence (List.range N)
          ⟨i, List.mem_range.mpr hi, he⟩
        simp [complete, hcb, this]
  · intro cbs hcb hlen hok
    obtain ⟨fs, hfs, hflen, hsig⟩ := allocFences_ok createFence (List.range N)
      fun i hi => hok i (List.mem_range.mp hi)
    refine ⟨⟨cbs, fs, now, now⟩, ?_, hlen, ?_, hsig, rfl⟩
    · simp [complete, hcb, hfs]
    · simpa using hflen

/-- Witness for C8: a device that grants two buffers and two fences. -/
theorem complete_creation_error_or_full_graph_witness :
    ∃ gr, complete (.ok [10, 11]) (fun i => .ok (20 + i)) 2 5 = .ok gr
      ∧ gr.command_buffers.length = 2
      ∧ gr.fences.length = 2
      ∧ (∀ f ∈ gr.fences, f.signaled = true)
      ∧ gr.last_instant = gr.current_instant :=
  (complete_creation_error_or_full_graph (.ok [10, 11])
      (fun i => .ok (20 + i)) 2 5).2.2 [10, 11] rfl rfl
    fun i _ => ⟨20 + i, rfl⟩

/-! ### C1 -/

theorem processQualifiers_lookupBuffer (bufSize : Buffer → Nat) :
    ∀ (qs : List Qualifier) (s : HazardState) (i : Nat) (b : Buffer),
      ((processQualifiers bufSize s i qs).2).lookupBuffer b =
        (lastBufferAccessIn qs b).getD (s.lookupBuffer b) := by
  intro qs
  induction qs with
  | nil => intro s i b; rfl
  | cons q qs ih =>
      intro s i b
      cases q with
      | buffer b' a =>
          simp only [processQualifiers, processQualifier, lastBufferAccessIn]
          rw [ih]
          cases hli : lastBufferAccessIn qs b
          · simp only [Option.getD_none, HazardState.lookupBuffer_insertBuffer]
            by_cases hb : b = b'
            · simp [hb]
            · have hb2 : ¬b' = b := fun h => hb h.symm
              simp [hb, hb2]
          · simp
      | image im a asp =>
          simp only [processQualifiers, processQualifier, lastBufferAccessIn]
          rw [ih]
          cases hli : lastBufferAccessIn qs b
          · simp [HazardState.lookupBuffer_insertImage]
          · simp

theorem processQualifiers_lookupImage (bufSize : Buffer → Nat) :
    ∀ (qs : List Qualifier) (s : HazardState) (i : Nat) (img : Image),
      ((processQualifiers bufSize s i qs).2).lookupImage img =
        (lastImageAccessIn qs img).getD (s.lookupImage img) := by
  intro qs
  induction qs with
  | nil => intro s i img; rfl
  | cons q qs ih =>
      intro s i img
      cases q with
      | image im a asp =>
          simp only [processQualifiers, processQualifier, lastImageAccessIn]
          rw [ih]
          cases hli : lastImageAccessIn qs img
          · simp only [Option.getD_none, HazardState.lookupImage_insertImage]
            by_cases hb : img = im
            · simp [hb]
            · have hb2 : ¬im = img := fun h => hb h.symm
              simp [hb, hb2]
          · simp
      | buffer b' a =>
          simp only [processQualifiers, processQualifier, lastImageAccessIn]
          rw [ih]
          cases hli : lastImageAccessIn qs img
          · simp [HazardState.lookupImage_insertBuffer]
          · simp

theorem runTasks_hazard_ok (bufSize : Buffer → Nat) :
    ∀ (ts : List TaskModel) (ls : LoopState), (∀ t ∈ ts, t.fails = false) →
      ((runTasks bufSize ls ts).1).hazard = frameHazard bufSize ls.hazard ts := by
  intro ts
  induction ts with
  | nil => intro ls _; rfl
  | cons t ts ih =>
      intro ls h
      rcases hr : runTask bufSize ls t with ⟨ls1, p⟩
      have hp : p = false := by
        have := runTask_panicked bufSize ls t
        rw [hr] at this; simp only at this; rw [this]
        exact h t (List.mem_cons_self _ _)
      subst hp
      have hhz : ls1.hazard = (processQualifiers bufSize ls.hazard 0 t.qualifiers).2 := by
        have := runTask_hazard bufSize ls t
        rw [hr] at this; exact this
      simp only [runTasks, hr, if_neg Bool.false_ne_true, frameHazard]
      rw [ih ls1 fun u hu => h u (List.mem_cons_of_mem _ hu), hhz]

theorem runTasks_hazard_last (bufSize : Buffer → Nat) (t : TaskModel) :
    ∀ (ts : List TaskModel) (ls : LoopState), (∀ u ∈ ts, u.fails = false) →
      ((runTasks bufSize ls (ts ++ [t])).1).hazard =
        frameHazard bufSize ls.hazard (ts ++ [t]) := by
  intro ts
  induction ts with
  | nil =>
      intro ls _
      rcases hr : runTask bufSize ls t with ⟨ls1, p⟩
      have hhz : ls1.hazard = (processQualifiers bufSize ls.hazard 0 t.qualifiers).2 := by
        have := runTask_hazard bufSize ls t
        rw [hr] at this; exact this
      simp only [List.nil_append, runTasks, hr, frameHazard]
      cases p <;> simp [hhz, frameHazard]
  | cons u ts ih =>
      intro ls h
      rcases hr : runTask bufSize ls u with ⟨ls1, p⟩
      have hp : p = false := by
        have := runTask_panicked bufSize ls u
        rw [hr] at this; simp only at this; rw [this]
        exact h u (List.mem_cons_self _ _)
      subst hp
      have hhz : ls1.hazard = (processQualifiers bufSize ls.hazard 0 u.qualifiers).2 := by
        have := runTask_hazard bufSize ls u
        rw [hr] at this; exact this
      simp only [List.cons_append, runTasks, hr, if_neg Bool.false_ne_true,
        frameHazard, List.append_eq]
      rw [ih ls1 fun v hv => h v (List.mem_cons_of_mem _ hv), hhz]

theorem lastBufferAccessIn_append (b : Buffer) :
    ∀ xs ys : List Qualifier,
      lastBufferAccessIn (xs ++ ys) b =
        match lastBufferAccessIn ys b with
        | some a => some a
        | none => lastBufferAccessIn xs b := by
  intro xs ys
  induction xs with
  | nil =>
      cases h : lastBufferAccessIn ys b <;> simp [lastBufferAccessIn, h]
  | cons x xs ih =>
      show (match lastBufferAccessIn (xs ++ ys) b with
        | some a => some a
        | none =>
            match x with
            | .buffer b' a => if b' = b then some a else none
            | .image _ _ _ => none) = _
      rw [ih]
      cases h : lastBufferAccessIn ys b <;>
        cases h2 : lastBufferAccessIn xs b <;>
          simp [lastBufferAccessIn, h, h2]

theorem lastImageAccessIn_append (img : Image) :
    ∀ xs ys : List Qualifier,
      lastImageAccessIn (xs ++ ys) img =
        match lastImageAccessIn ys img with
        | some a => some a
        | none => lastImageAccessIn xs img := by
  intro xs ys
  induction xs with
  | nil =>
      cases h : lastImageAccessIn ys img <;> simp [lastImageAccessIn, h]
  | cons x xs ih =>
      show (match lastImageAccessIn (xs ++ ys) img with
        | some a => some a
        | none =>
            match x with
            | .image img' a _ => if img' = img then some a else none
            | .buffer _ _ => none) = _
      rw [ih]
      cases h : lastImageAccessIn ys img <;>
        cases h2 : lastImageAccessIn xs img <;>
          simp [lastImageAccessIn, h, h2]

theorem frameHazard_lookupBuffer (bufSize : Buffer → Nat) :
    ∀ (ts : List TaskModel) (s : HazardState) (b : Buffer),
      (frameHazard bufSize s ts).lookupBuffer b =
        (lastBufferAccessIn (ts.flatMap TaskModel.qualifiers) b).getD
          (s.lookupBuffer b) := by
  intro ts
  induction ts with
  | nil => intro s b; rfl
  | cons t ts ih =>
      intro s b
      simp only [frameHazard, List.flatMap_cons]
      rw [ih, processQualifiers_lookupBuffer, lastBufferAccessIn_append]
      cases h1 : lastBufferAccessIn (ts.flatMap TaskModel.qualifiers) b <;>
        cases h2 : lastBufferAccessIn t.qualifiers b <;> simp

theorem frameHazard_lookupImage (bufSize : Buffer → Nat) :
    ∀ (ts : List TaskModel) (s : HazardState) (img : Image),
      (frameHazard bufSize s ts).lookupImage img =
        (lastImageAccessIn (ts.flatMap TaskModel.qualifiers) img).getD
          (s.lookupImage img) := by
  intro ts
  induction ts with
  | nil => intro s img; rfl
  | cons t ts ih =>
      intro s img
      simp only [frameHazard, List.flatMap_cons]
      rw [ih, processQualifiers_lookupImage, lastImageAccessIn_append]
      cases h1 : lastImageAccessIn (ts.flatMap TaskModel.qualifiers) img <;>
        cases h2 : lastImageAccessIn t.qualifiers img <;> simp

/-- C1: hazard tables are updated strictly in qualifier order. After the
task loop has processed tasks `0..=k` of a frame (which requires tasks
`0..k-1` not to fail), each table entry equals the access requested by the
last descriptor touching that resource among those tasks (the default `None`
when untouched); and at qualifier granularity, the table after any qualifier
list reflects the last touch in that list, the update landing before the
next qualifier is processed. -/
theorem hazard_table_reflects_last_access (bufSize : Buffer → Nat)
    (ts : List TaskModel) (k : Nat) (hk : k < ts.length)
    (hfail : ∀ t ∈ ts.take k, t.fails = false) :
    (∀ b : Buffer,
      ((runTasks bufSize LoopState.initial (ts.take (k + 1))).1).hazard.lookupBuffer b
        = (lastBufferAccessIn ((ts.take (k + 1)).flatMap TaskModel.qualifiers) b).getD
            BufferAccess.None)
  ∧ (∀ img : Image,
      ((runTasks bufSize LoopState.initial (ts.take (k + 1))).1).hazard.lookupImage img
        = (lastImageAccessIn ((ts.take (k + 1)).flatMap TaskModel.qualifiers) img).getD
            ImageAccess.None)
  ∧ (∀ (s : HazardState) (i : Nat) (qs : List Qualifier) (b : Buffer),
      ((processQualifiers bufSize s i qs).2).lookupBuffer b
        = (lastBufferAccessIn qs b).getD (s.lookupBuffer b))
  ∧ (∀ (s : HazardState) (i : Nat) (qs : List Qualifier) (img : Image),
      ((processQualifiers bufSize s i qs).2).lookupImage img
        = (lastImageAccessIn qs img).getD (s.lookupImage img)) := by
  have htake : ts.take (k + 1) = ts.take k ++ [ts.get ⟨k, hk⟩] := by
    rw [List.take_succ]
    simp [List.getElem?_eq_getElem hk, List.get_eq_getElem]
  have hhz : ((runTasks bufSize LoopState.initial (ts.take (k + 1))).1).hazard =
      frameHazard bufSize HazardState.initial (ts.take (k + 1)) := by
    rw [htake]
    exact runTasks_hazard_last bufSize _ (ts.take k) LoopState.initial hfail
  refine ⟨?_, ?_, fun s i qs b => processQualifiers_lookupBuffer bufSize qs s i b,
    fun s i qs img => processQualifiers_lookupImage bufSize qs s i img⟩
  · intro b
    rw [hhz, frameHazard_lookupBuffer]
    rfl
  · intro img
    rw [hhz, frameHazard_lookupImage]
    rfl

/-- Witness for C1: a two-task frame where the second task overwrites the
access of buffer 0; the table after both tasks holds the second access. -/
theorem hazard_table_reflects_last_access_witness :
    ((runTasks (fun _ => 4) LoopState.initial
        ([⟨[.buffer 0 .TransferWrite], false, none, none⟩,
          ⟨[.buffer 0 .ComputeShaderReadOnly, .image 1 .ColorAttachment .Color],
            false, none, none⟩].take (1 + 1))).1).hazard.lookupBuffer 0
      = (lastBufferAccessIn
          (([⟨[.buffer 0 .TransferWrite], false, none, none⟩,
             ⟨[.buffer 0 .ComputeShaderReadOnly, .image 1 .ColorAttachment .Color],
               false, none, none⟩].take (1 + 1)).flatMap TaskModel.qualifiers) 0).getD
          BufferAccess.None :=
  (hazard_table_reflects_last_access (fun _ => 4)
    [⟨[.buffer 0 .TransferWrite], false, none, none⟩,
     ⟨[.buffer 0 .ComputeShaderReadOnly, .image 1 .ColorAttachment .Color],
       false, none, none⟩] 1 (by decide) (by simp)).1 0

/-! ### C2 -/

/-- C2 counterexample: the `smart_barriers` map lives inside the per-task
loop, so batching never crosses task boundaries. A frame with two tasks
whose naive barriers share the stage pair (first touch of two fresh buffers,
both compute-shader writes) records two pipeline-barrier commands, while the
frame produces only one distinct `(src_stage, dst_stage)` pair — refuting
the claimed frame-level equality. -/
theorem barrier_count_frame_level_counterexample :
    ((render ⟨true, 1, 0, (fun _ => 4), 2,
        [⟨[.buffer 0 .ComputeShaderWriteOnly], false, none, none⟩,
         ⟨[.buffer 1 .ComputeShaderWriteOnly], false, none, none⟩]⟩
      ⟨0, 0, 0⟩).recorded.length = 2)
  ∧ (((frameTaskKeys (fun _ => 4) HazardState.initial
        [⟨[.buffer 0 .ComputeShaderWriteOnly], false, none, none⟩,
         ⟨[.buffer 1 .ComputeShaderWriteOnly], false, none, none⟩]).flatten).dedup.length
      = 1)
  ∧ 2 ≠ 1 :=
  ⟨rfl, by decide, by decide⟩

theorem PipelineBarrier.key_set_barriers (pb : PipelineBarrier) (bs : List Barrier) :
    ({ pb with barriers := bs } : PipelineBarrier).key = pb.key := rfl

theorem smartAdd_keys (nb : PipelineBarrier) :
    ∀ acc : List PipelineBarrier,
      (smartAdd acc nb).map PipelineBarrier.key =
        if nb.key ∈ acc.map PipelineBarrier.key
        then acc.map PipelineBarrier.key
        else acc.map PipelineBarrier.key ++ [nb.key] := by
  intro acc
  induction acc with
  | nil => simp [smartAdd]
  | cons pb rest ih =>
      by_cases h : pb.key = nb.key
      · simp only [smartAdd, if_pos h, List.map_cons, PipelineBarrier.key_set_barriers]
        rw [if_pos (List.mem_cons.mpr (Or.inl h.symm))]
      · have h2 : ¬nb.key = pb.key := fun e => h e.symm
        simp only [smartAdd, if_neg h, List.map_cons, ih]
        by_cases hm : nb.key ∈ rest.map PipelineBarrier.key
        · rw [if_pos hm, if_pos (List.mem_cons.mpr (Or.inr hm))]
        · rw [if_neg hm, if_neg (by simp [h2, hm]), List.cons_append]

theorem smartAdd_keys_nodup (nb : PipelineBarrier) (acc : List PipelineBarrier)
    (h : (acc.map PipelineBarrier.key).Nodup) :
    ((smartAdd acc nb).map PipelineBarrier.key).Nodup := by
  rw [smartAdd_keys]
  by_cases hm : nb.key ∈ acc.map PipelineBarrier.key
  · simpa [hm] using h
  · rw [if_neg hm]
    refine h.append (List.nodup_singleton _) ?_
    intro a ha hb
    rw [List.mem_singleton] at hb
    subst hb
    exact hm ha

theorem smartBarriers_keys (naive : List PipelineBarrier) :
    ∀ acc : List PipelineBarrier, (acc.map PipelineBarrier.key).Nodup →
      ((naive.foldl smartAdd acc).map PipelineBarrier.key).Nodup
      ∧ ∀ x, x ∈ (naive.foldl smartAdd acc).map PipelineBarrier.key ↔
          x ∈ acc.map PipelineBarrier.key ∨ x ∈ naive.map PipelineBarrier.key := by
  induction naive with
  | nil => intro acc h; exact ⟨h, by simp⟩
  | cons nb naive ih =>
      intro acc h
      obtain ⟨hnd, hmem⟩ := ih (smartAdd acc nb) (smartAdd_keys_nodup nb acc h)
      refine ⟨hnd, fun x => ?_⟩
      rw [List.foldl_cons, hmem x, smartAdd_keys]
      by_cases hm : nb.key ∈ acc.map PipelineBarrier.key
      · rw [if_pos hm]
        simp only [List.map_cons, List.mem_cons]
        have hx : x = nb.key → x ∈ acc.map PipelineBarrier.key := fun e => e ▸ hm
        tauto
      · rw [if_neg hm]
        simp only [List.mem_append, List.mem_singleton, List.map_cons, List.mem_cons]
        tauto

theorem smartBarriers_length (naive : List PipelineBarrier) :
    (smartBarriers naive).length =
      (naive.map PipelineBarrier.key).dedup.length := by
  obtain ⟨hnd, hmem⟩ := smartBarriers_keys naive [] (by simp)
  have h2 : ((smartBarriers naive).map PipelineBarrier.key).toFinset =
      (naive.map PipelineBarrier.key).toFinset := by
    ext x
    simpa [List.mem_toFinset] using hmem x
  calc (smartBarriers naive).length
      = ((smartBarriers naive).map PipelineBarrier.key).length := by
        rw [List.length_map]
    _ = ((smartBarriers naive).map PipelineBarrier.key).toFinset.card :=
        (List.toFinset_card_of_nodup hnd).symm
    _ = (naive.map PipelineBarrier.key).toFinset.card := by rw [h2]
    _ = (naive.map PipelineBarrier.key).dedup.length := List.card_toFinset _

theorem smartAdd_mono (nb : PipelineBarrier) :
    ∀ (acc : List PipelineBarrier) (pb : PipelineBarrier), pb ∈ acc →
      ∃ pb2 ∈ smartAdd acc nb, pb2.key = pb.key
        ∧ ∀ br ∈ pb.barriers, br ∈ pb2.barriers := by
  intro acc
  induction acc with
  | nil => intro pb h; cases h
  | cons pb0 rest ih =>
      intro pb h
      by_cases hk : pb0.key = nb.key
      · simp only [smartAdd, if_pos hk]
        rcases List.mem_cons.mp h with rfl | h
        · exact ⟨{ pb with barriers := pb.barriers ++ nb.barriers },
            List.mem_cons_self _ _, rfl, fun br hbr => List.mem_append_left _ hbr⟩
        · exact ⟨pb, List.mem_cons_of_mem _ h, rfl, fun br hbr => hbr⟩
      · simp only [smartAdd, if_neg hk]
        rcases List.mem_cons.mp h with rfl | h
        · exact ⟨pb, List.mem_cons_self _ _, rfl, fun br hbr => hbr⟩
        · obtain ⟨pb2, h2, hk2, hsub⟩ := ih pb h
          exact ⟨pb2, List.mem_cons_of_mem _ h2, hk2, hsub⟩

theorem smartAdd_self (nb : PipelineBarrier) :
    ∀ acc : List PipelineBarrier,
      ∃ pb2 ∈ smartAdd acc nb, pb2.key = nb.key
        ∧ ∀ br ∈ nb.barriers, br ∈ pb2.barriers := by
  intro acc
  induction acc with
  | nil => exact ⟨nb, by simp [smartAdd], rfl, fun br hbr => hbr⟩
  | cons pb0 rest ih =>
      by_cases hk : pb0.key = nb.key
      · refine ⟨{ pb0 with barriers := pb0.barriers ++ nb.barriers }, ?_, hk,
          fun br hbr => List.mem_append_right _ hbr⟩
        simp [smartAdd, hk]
      · obtain ⟨pb2, h2, hk2, hsub⟩ := ih
        refine ⟨pb2, ?_, hk2, hsub⟩
        simp only [smartAdd, if_neg hk]
        exact List.mem_cons_of_mem _ h2

theorem foldl_smartAdd_mono :
    ∀ (l acc : List PipelineBarrier) (pb : PipelineBarrier), pb ∈ acc →
      ∃ pb2 ∈ l.foldl smartAdd acc, pb2.key = pb.key
        ∧ ∀ br ∈ pb.barriers, br ∈ pb2.barriers := by
  intro l
  induction l with
  | nil => intro acc pb h; exact ⟨pb, h, rfl, fun br hbr => hbr⟩
  | cons nb l ih =>
      intro acc pb h
      obtain ⟨pb1, h1, hk1, hs1⟩ := smartAdd_mono nb acc pb h
      obtain ⟨pb2, h2, hk2, hs2⟩ := ih (smartAdd acc nb) pb1 h1
      exact ⟨pb2, h2, hk2.trans hk1, fun br hbr => hs2 br (hs1 br hbr)⟩

theorem foldl_smartAdd_covers :
    ∀ (l acc : List PipelineBarrier) (nb : PipelineBarrier), nb ∈ l →
      ∃ pb ∈ l.foldl smartAdd acc, pb.key = nb.key
        ∧ ∀ br ∈ nb.barriers, br ∈ pb.barriers := by
  intro l
  induction l with
  | nil => intro acc nb h; cases h
  | cons m l ih =>
      intro acc nb h
      rcases List.mem_cons.mp h with rfl | h
      · obtain ⟨pb1, h1, hk1, hs1⟩ := smartAdd_self nb acc
        obtain ⟨pb2, h2, hk2, hs2⟩ := foldl_smartAdd_mono l (smartAdd acc nb) pb1 h1
        exact ⟨pb2, h2, hk2.trans hk1, fun br hbr => hs2 br (hs1 br hbr)⟩
      · exact ih (smartAdd acc m) nb h

theorem runTasks_commands_count (bufSize : Buffer → Nat) :
    ∀ (ts : List TaskModel) (ls : LoopState), (∀ t ∈ ts, t.fails = false) →
      ((runTasks bufSize ls ts).1).commands.length =
        ls.commands.length +
          ((frameTaskKeys bufSize ls.hazard ts).map
            (fun l => l.dedup.length)).sum := by
  intro ts
  induction ts with
  | nil => intro ls _; simp [runTasks, frameTaskKeys]
  | cons t ts ih =>
      intro ls h
      rcases hr : runTask bufSize ls t with ⟨ls1, p⟩
      have hp : p = false := by
        have := runTask_panicked bufSize ls t
        rw [hr] at this; simp only at this; rw [this]
        exact h t (List.mem_cons_self _ _)
      subst hp
      rcases hpq : processQualifiers bufSize ls.hazard 0 t.qualifiers with ⟨naive, s1⟩
      have hcmd : ls1.commands =
          ls.commands ++ (smartBarriers naive).map Command.pipelineBarrier := by
        have := runTask_commands bufSize ls t
        rw [hr, hpq] at this; exact this
      have hhz : ls1.hazard = s1 := by
        have := runTask_hazard bufSize ls t
        rw [hr, hpq] at this; exact this
      simp only [runTasks, hr, if_neg Bool.false_ne_true, frameTaskKeys, hpq]
      rw [ih ls1 fun u hu => h u (List.mem_cons_of_mem _ hu), hcmd, hhz]
      simp [smartBarriers_length, Nat.add_assoc]

/-- C2 (amended): barrier batching is exact per task, not per frame. Within
one task, naive barriers with identical `(src_stage, dst_stage)` pairs land
in the same merged command and distinct pairs never merge, so the task emits
exactly one command per distinct pair among its naive barriers; the frame
total is the sum of those per-task counts (not the number of qualifiers, and
not the number of pairs distinct across the whole frame). -/
theorem barrier_batching_per_task (naive : List PipelineBarrier) :
    ((smartBarriers naive).length =
      (naive.map PipelineBarrier.key).dedup.length)
  ∧ (∀ pb1 ∈ smartBarriers naive, ∀ pb2 ∈ smartBarriers naive,
      pb1.key = pb2.key → pb1 = pb2)
  ∧ (∀ nb ∈ naive, ∃ pb ∈ smartBarriers naive,
      pb.key = nb.key ∧ ∀ br ∈ nb.barriers, br ∈ pb.barriers)
  ∧ (∀ (bufSize : Buffer → Nat) (ts : List TaskModel),
      (∀ t ∈ ts, t.fails = false) →
      ((runTasks bufSize LoopState.initial ts).1).commands.length =
        ((frameTaskKeys bufSize HazardState.initial ts).map
          (fun l => l.dedup.length)).sum) := by
  refine ⟨smartBarriers_length naive,
    fun pb1 h1 pb2 h2 he =>
      List.inj_on_of_nodup_map (smartBarriers_keys naive [] (by simp)).1 h1 h2 he,
    fun nb h => foldl_smartAdd_covers naive [] nb h,
    fun bufSize ts h => by
      simpa [LoopState.initial] using
        runTasks_commands_count bufSize ts LoopState.initial h⟩

/-- Witness for C2 (amended) at a concrete task: two naive barriers with the
same stage pair merge into a single batch that carries both sub-barriers. -/
theorem barrier_batching_per_task_witness :
    ∃ pb ∈ smartBarriers
        [⟨0, 2048, [Barrier.buffer 0 0 4 0 2]⟩, ⟨0, 2048, [Barrier.buffer 1 0 4 0 2]⟩],
      PipelineBarrier.key pb =
        PipelineBarrier.key ⟨0, 2048, [Barrier.buffer 1 0 4 0 2]⟩
      ∧ ∀ br ∈ (⟨0, 2048, [Barrier.buffer 1 0 4 0 2]⟩ : PipelineBarrier).barriers,
          br ∈ pb.barriers :=
  (barrier_batching_per_task
      [⟨0, 2048, [Barrier.buffer 0 0 4 0 2]⟩, ⟨0, 2048, [Barrier.buffer 1 0 4 0 2]⟩]).2.2.1
    ⟨0, 2048, [Barrier.buffer 1 0 4 0 2]⟩ (by decide)

end Boson
